import Mathlib

/-!
Verification of the dealership chatbot's conversation orchestrator.

The repository snapshot contains the React frontend
(src/src/components and src/frontend/src), the README and deployment
scripts.  The backend that implements the Conversation Orchestrator
(backend/main.py and backend/orchestrator.py per the README's project
structure) is not part of the snapshot, so the core data model and the
per-turn pipeline are modelled from the specification; the frontend
definitions below are translated directly from the TypeScript sources.
-/

namespace AutoEmporium

/-! ## Frontend model (translated from the TypeScript sources) -/

/-- The SessionState interface of src/src/components/ChatbotPage.tsx
(lines 11-19) and of both WorkflowVisualization.tsx files: every field
nullable except test_drive_completed. -/
structure FSessionState where
  body : Option String
  seats_min : Option Int
  fuel : Option String
  brand : Option String
  model : Option String
  stage : Option String
  test_drive_completed : Bool
deriving DecidableEq, Repr

/-- JavaScript truthiness of a nullable string (the double-bang in
WorkflowVisualization.tsx): false for null and for the empty string. -/
def truthyStr : Option String → Bool
  | none => false
  | some s => s != ""

/-- Completed flag of the first step of the stages array in
WorkflowVisualization.tsx (both copies), id brand: the double-bang of
state.brand. -/
def wvBrandCompleted (s : FSessionState) : Bool := truthyStr s.brand

/-- Completed flag of the stages entry with id model: the double-bang of
state.model. -/
def wvModelCompleted (s : FSessionState) : Bool := truthyStr s.model

/-- Completed flag of the stages entry with id test_drive:
state.test_drive_completed or stage strictly equal to the test_drive
string. -/
def wvTestDriveCompleted (s : FSessionState) : Bool :=
  s.test_drive_completed || s.stage == some "test_drive"

/-- Completed flag of the stages entry with id deal (title: The Deal):
stage strictly equal to the financing string. -/
def wvDealCompleted (s : FSessionState) : Bool := s.stage == some "financing"

/-- Completed flag of the stages entry with id delivery (title: The
Delivery): the literal false in the source. -/
def wvDeliveryCompleted (_s : FSessionState) : Bool := false

/-! ## Core model

The Conversation Orchestrator itself (backend/main.py,
backend/orchestrator.py) is missing from the snapshot; the definitions
in this section are modelled from the specification. -/

/-- Modelled from the spec: the funnel stages of the missing backend
orchestrator, in the fixed order intake, shortlist, test_drive,
financing, delivery. -/
inductive Stage where
  | intake
  | shortlist
  | test_drive
  | financing
  | delivery
deriving DecidableEq, Repr

/-- Modelled from the spec: the immediate successor in the fixed stage
order; delivery is terminal. -/
def nextStage : Stage → Stage
  | .intake => .shortlist
  | .shortlist => .test_drive
  | .test_drive => .financing
  | .financing => .delivery
  | .delivery => .delivery

/-- Position of a stage in the fixed order. -/
def stageIdx : Stage → Nat
  | .intake => 0
  | .shortlist => 1
  | .test_drive => 2
  | .financing => 3
  | .delivery => 4

/-- Position of an optional stage; absent (before the first message)
sits at the bottom of the order. -/
def optStageIdx : Option Stage → Nat
  | none => 0
  | some st => stageIdx st

/-- Modelled from the spec: the recognized slots of the missing
backend's SessionState: body, seats_min (integer at least 1), fuel,
brand, model, each possibly absent. -/
structure Slots where
  body : Option String
  seats_min : Option Nat
  fuel : Option String
  brand : Option String
  model : Option String
deriving DecidableEq, Repr

/-- The five recognized slot names. -/
inductive SlotName where
  | body
  | seats_min
  | fuel
  | brand
  | model
deriving DecidableEq, Repr

/-- A slot value is a string or an integer (for seats_min). -/
inductive SlotValue where
  | str (v : String)
  | num (n : Nat)
deriving DecidableEq, Repr

/-- Look up one slot by name. -/
def Slots.get (sl : Slots) : SlotName → Option SlotValue
  | .body => match sl.body with | none => none | some v => some (.str v)
  | .seats_min => match sl.seats_min with | none => none | some n => some (.num n)
  | .fuel => match sl.fuel with | none => none | some v => some (.str v)
  | .brand => match sl.brand with | none => none | some v => some (.str v)
  | .model => match sl.model with | none => none | some v => some (.str v)

/-- One (role, text) turn of the append-only history. -/
structure ChatTurn where
  role : String
  text : String
deriving DecidableEq, Repr

/-- Modelled from the spec: the missing backend's SessionState: the
slots mapping, the stage (absent before the first message),
test_drive_completed (defaults false) and the append-only history. -/
structure SessionState where
  slots : Slots
  stage : Option Stage
  test_drive_completed : Bool
  history : List ChatTurn
deriving DecidableEq, Repr

/-- Modelled from the spec: a candidate partial update proposed by the
Slot Extractor Adapter: only slots the extractor is confident changed,
an explicit structured test-drive signal, an explicit stage-advance
signal (for financing), and an optional free-text reply. -/
structure CandidateUpdate where
  body : Option String
  seats_min : Option Int
  fuel : Option String
  brand : Option String
  model : Option String
  test_drive_signal : Bool
  advance_signal : Bool
  reply : Option String
deriving DecidableEq, Repr

/-- Whether the candidate update mentions (supplies a value for) a
given slot name. -/
def CandidateUpdate.mentions (u : CandidateUpdate) : SlotName → Bool
  | .body => u.body.isSome
  | .seats_min => u.seats_min.isSome
  | .fuel => u.fuel.isSome
  | .brand => u.brand.isSome
  | .model => u.model.isSome

/-- Modelled from the spec: outcome of the Slot Extractor Adapter: a
candidate update, or an adapter error / malformed output. -/
inductive ExtractResult where
  | ok (u : CandidateUpdate)
  | err
deriving DecidableEq, Repr

/-- Whether the extraction outcome mentions a slot; an error mentions
nothing (the candidate update is treated as empty). -/
def ExtractResult.mentions : ExtractResult → SlotName → Bool
  | .ok u, n => u.mentions n
  | .err, _ => false

/-- ASCII whitespace recognized by trimming. -/
def isWS (c : Char) : Bool := c == ' ' || c == '\t' || c == '\n' || c == '\r'

/-- Trim whitespace on both ends of a character list. -/
def trimChars (l : List Char) : List Char :=
  ((l.dropWhile isWS).reverse.dropWhile isWS).reverse

/-- Modelled from the spec: string-slot validation of the State Merger:
the value is trimmed and rejected if empty. -/
def normStr (v : String) : Option String :=
  let t := String.mk (trimChars v.data)
  if t == "" then none else some t

/-- Modelled from the spec: merge one string slot: overwrite
unconditionally with a well-typed candidate value; malformed candidate
values are dropped silently. -/
def mergeStrSlot (old : Option String) (cand : Option String) : Option String :=
  match cand with
  | none => old
  | some v =>
    match normStr v with
    | none => old
    | some t => some t

/-- Modelled from the spec: merge the seats_min slot: the candidate
value must coerce to a positive integer, otherwise it is dropped. -/
def mergeSeatsSlot (old : Option Nat) (cand : Option Int) : Option Nat :=
  match cand with
  | none => old
  | some v => if 1 ≤ v then some v.toNat else old

/-- Modelled from the spec: the State Merger on the slots mapping:
each slot of the candidate update is applied independently. -/
def mergeSlots (sl : Slots) (u : CandidateUpdate) : Slots :=
  { body := mergeStrSlot sl.body u.body
    seats_min := mergeSeatsSlot sl.seats_min u.seats_min
    fuel := mergeStrSlot sl.fuel u.fuel
    brand := mergeStrSlot sl.brand u.brand
    model := mergeStrSlot sl.model u.model }

/-- Apply only the named slot of the candidate update, used to express
that merge order across distinct slot names does not matter. -/
def applySlot (u : CandidateUpdate) (sl : Slots) : SlotName → Slots
  | .body => { sl with body := mergeStrSlot sl.body u.body }
  | .seats_min => { sl with seats_min := mergeSeatsSlot sl.seats_min u.seats_min }
  | .fuel => { sl with fuel := mergeStrSlot sl.fuel u.fuel }
  | .brand => { sl with brand := mergeStrSlot sl.brand u.brand }
  | .model => { sl with model := mergeStrSlot sl.model u.model }

/-- The slot names in declaration order. -/
def allSlotNames : List SlotName := [.body, .seats_min, .fuel, .brand, .model]

/-- Modelled from the spec: the State Merger on the whole state:
slots merged field-wise; test_drive_completed flips to true only on the
explicit structured signal; stage and history are not the merger's
concern. -/
def mergeState (s : SessionState) (u : CandidateUpdate) : SessionState :=
  { s with
    slots := mergeSlots s.slots u
    test_drive_completed := s.test_drive_completed || u.test_drive_signal }

/-- A candidate update is well-formed when every supplied string value
survives trimming and a supplied seats_min is at least 1. -/
def strOk : Option String → Bool
  | none => true
  | some v => (normStr v).isSome

/-- Well-formedness of a supplied seats_min value. -/
def seatsOk : Option Int → Bool
  | none => true
  | some k => decide (1 ≤ k)

/-- Well-formedness of a whole candidate update. -/
def wellFormed (u : CandidateUpdate) : Bool :=
  strOk u.body && strOk u.fuel && strOk u.brand && strOk u.model && seatsOk u.seats_min

/-- Modelled from the spec: the required-slot table of the Readiness
and Transition Engine: whether the state may progress out of the given
stage.  The intake row requires body or brand (at least one), seats_min
and fuel; shortlist requires brand and model; test_drive requires the
completed flag; financing advances only on the explicit stage-advance
signal; delivery is terminal. -/
def isComplete (st : Stage) (sl : Slots) (tdc : Bool) (adv : Bool) : Bool :=
  match st with
  | .intake => (sl.body.isSome || sl.brand.isSome) && sl.seats_min.isSome && sl.fuel.isSome
  | .shortlist => sl.brand.isSome && sl.model.isSome
  | .test_drive => tdc
  | .financing => adv
  | .delivery => false

/-- Modelled from the spec: the transition rule, evaluated once per
turn after the merge: on a session's first turn (stage absent, which
per the data model is exactly the no-history case) the stage is
initialized to intake and the completeness check is skipped; otherwise
a complete stage moves to its immediate successor, with no chained
multi-hop advance. -/
def transitionStage (s m : SessionState) (u : CandidateUpdate) : Stage :=
  match s.stage with
  | none => .intake
  | some st =>
    if isComplete st m.slots m.test_drive_completed u.advance_signal then nextStage st else st

/-- The generic fallback reply (the string the frontend shows on an
errored exchange). -/
def fallbackReply : String := "Sorry, I encountered an error. Please try again later."

/-- Default assistant reply when the extractor supplies none. -/
def defaultReply : String := "How else can I help you with your car search?"

/-- Modelled from the spec: one turn of the Turn Controller on a
hydrated state: on extraction failure the candidate update is treated
as empty, the fallback reply is used and the state is unchanged apart
from the appended history; otherwise merge then the single transition
check, with the history extended by the user message and the reply. -/
def processTurn (s : SessionState) (msg : String) : ExtractResult → SessionState × String
  | .err =>
    ({ s with history := s.history ++ [⟨"user", msg⟩, ⟨"assistant", fallbackReply⟩] },
      fallbackReply)
  | .ok u =>
    let m := mergeState s u
    let st := transitionStage s m u
    let reply := u.reply.getD defaultReply
    ({ m with
        stage := some st
        history := s.history ++ [⟨"user", msg⟩, ⟨"assistant", reply⟩] },
      reply)

/-- Run a sequence of turns, each a (message, extraction outcome)
pair. -/
def runTurns (s : SessionState) : List (String × ExtractResult) → SessionState
  | [] => s
  | t :: ts => runTurns (processTurn s t.1 t.2).1 ts

/-- Modelled from the spec: the long-lived PreferenceRecord of the
missing backend, one per user id: the most recently known slot values
(the spec's stage-history highlights play no part in any claim and are
omitted). -/
structure PreferenceRecord where
  slots : Slots
deriving DecidableEq, Repr

/-- Modelled from the spec: the two-tier memory store: working entries
keyed by session id and long-term entries keyed by user id. -/
structure Store where
  working : String → Option SessionState
  longterm : String → Option PreferenceRecord

/-- The empty slots mapping. -/
def emptySlots : Slots :=
  { body := none, seats_min := none, fuel := none, brand := none, model := none }

/-- The empty session: no slots, stage absent, flag false, no
history. -/
def emptySession : SessionState :=
  { slots := emptySlots, stage := none, test_drive_completed := false, history := [] }

/-- Keep the first value when present, otherwise fall back to the
second. -/
def preferFirst : Option α → Option α → Option α
  | some v, _ => some v
  | none, b => b

/-- Modelled from the spec: seeding at session start: every slot not
already present in the session takes the long-term value; long-term
values are defaults, never overrides. -/
def seedSlots (cur pref : Slots) : Slots :=
  { body := preferFirst cur.body pref.body
    seats_min := preferFirst cur.seats_min pref.seats_min
    fuel := preferFirst cur.fuel pref.fuel
    brand := preferFirst cur.brand pref.brand
    model := preferFirst cur.model pref.model }

/-- Modelled from the spec: hydration of a session: the working entry
when one exists, otherwise an empty session seeded from the user's
PreferenceRecord when one exists, otherwise the empty session. -/
def hydrate (store : Store) (sid uid : String) : SessionState :=
  match store.working sid with
  | some s => s
  | none =>
    match store.longterm uid with
    | some pref => { emptySession with slots := seedSlots emptySession.slots pref.slots }
    | none => emptySession

/-- Point update of a keyed lookup function (upsert). -/
def updateKey (f : String → Option α) (k : String) (v : α) : String → Option α :=
  fun q => if q = k then some v else f q

/-- Modelled from the spec: the field-wise upsert into a
PreferenceRecord: a newly observed non-absent value replaces the stored
one for that field only. -/
def mergePrefSlots (stored observed : Slots) : Slots :=
  { body := preferFirst observed.body stored.body
    seats_min := preferFirst observed.seats_min stored.seats_min
    fuel := preferFirst observed.fuel stored.fuel
    brand := preferFirst observed.brand stored.brand
    model := preferFirst observed.model stored.model }

/-- Modelled from the spec: persistence after a turn: the full
SessionState replaces the working entry for the session id and the
non-absent slot values are merged into the user's PreferenceRecord. -/
def persistTurn (store : Store) (sid uid : String) (s : SessionState) : Store :=
  { working := updateKey store.working sid s
    longterm :=
      updateKey store.longterm uid
        ⟨mergePrefSlots (((store.longterm uid).map PreferenceRecord.slots).getD emptySlots)
          s.slots⟩ }

/-- Modelled from the spec: the submit-turn request: user id, optional
session id (generated by the caller if absent) and the message text. -/
structure TurnRequest where
  user_id : String
  session_id : Option String
  message : String
deriving DecidableEq, Repr

/-- Modelled from the spec: the submit-turn response: reply text, the
effective session id and the updated SessionState snapshot. -/
structure TurnResult where
  reply : String
  session_id : String
  state : SessionState
deriving DecidableEq, Repr

/-- Modelled from the spec: the whole submit-turn operation of the Turn
Controller: resolve the session id, hydrate, run the turn, persist to
both stores, and return the reply, the effective session id and the
updated snapshot. -/
def submitTurn (store : Store) (req : TurnRequest) (freshId : String)
    (ex : ExtractResult) : Store × TurnResult :=
  let sid := req.session_id.getD freshId
  let s := hydrate store sid req.user_id
  let r := processTurn s req.message ex
  (persistTurn store sid req.user_id r.1, ⟨r.2, sid, r.1⟩)

/-- Modelled from the spec: the administrative delete-all-sessions
operation of the missing backend: every working-memory entry is
cleared; PreferenceRecords are untouched. -/
def deleteAllSessions (store : Store) : Store :=
  { store with working := fun _ => none }

/-- The caller-boundary handler, translated from
handleDeleteAllSessions in src/src/components/ChatbotButton.tsx (lines
268-299): the destructive call is issued only when the explicit
confirmation dialog is accepted. -/
def handleDeleteAllSessions (confirmed : Bool) (store : Store) : Store :=
  if confirmed then deleteAllSessions store else store

/-! ## Concrete fixtures used by the witness theorems -/

/-- A candidate update mentioning only body, seats_min and fuel. -/
def updSUV : CandidateUpdate :=
  { body := some "SUV", seats_min := some 5, fuel := some "hybrid", brand := none,
    model := none, test_drive_signal := false, advance_signal := false, reply := none }

/-- The empty candidate update: no slot mentioned, no signals. -/
def emptyUpdate : CandidateUpdate :=
  { body := none, seats_min := none, fuel := none, brand := none, model := none,
    test_drive_signal := false, advance_signal := false, reply := none }

/-- A session in stage intake whose slots already satisfy the intake
row of the required-slot table (the spec's concrete scenario). -/
def sIntake : SessionState :=
  { slots := { body := some "SUV", seats_min := some 5, fuel := some "hybrid",
               brand := none, model := none }
    stage := some .intake
    test_drive_completed := false
    history := [⟨"user", "I want a 5-seater SUV with hybrid engine"⟩,
                ⟨"assistant", "Great, any brand in mind?"⟩] }

/-- A session that has reached the terminal delivery stage. -/
def sDelivered : SessionState :=
  { slots := { body := some "SUV", seats_min := some 5, fuel := some "hybrid",
               brand := some "Audi", model := some "Q5" }
    stage := some .delivery
    test_drive_completed := true
    history := [⟨"user", "all done"⟩, ⟨"assistant", "congratulations"⟩] }

/-- A PreferenceRecord remembering brand Audi. -/
def prefAudi : PreferenceRecord :=
  ⟨{ body := none, seats_min := none, fuel := none, brand := some "Audi", model := none }⟩

/-- A store with no working entries and a long-term record for user
u1. -/
def store0 : Store :=
  { working := fun _ => none
    longterm := fun uid => if uid = "u1" then some prefAudi else none }

/-- A store whose working memory holds sIntake for session s1. -/
def storeW : Store :=
  { working := fun sid => if sid = "s1" then some sIntake else none
    longterm := fun uid => if uid = "u1" then some prefAudi else none }

/-- A two-turn script that never mentions the brand slot. -/
def turnsNoBrand : List (String × ExtractResult) :=
  [("hello", .err), ("I want a 5-seater SUV with hybrid engine", .ok updSUV)]

/-- A frontend snapshot that has reached the delivery stage. -/
def fDelivered : FSessionState :=
  { body := some "SUV", seats_min := some 5, fuel := some "hybrid", brand := some "Audi",
    model := some "Q5", stage := some "delivery", test_drive_completed := true }

/-! ## Helper lemmas -/

theorem mergeStrSlot_isSome (o c : Option String) (h : o.isSome = true) :
    (mergeStrSlot o c).isSome = true := by
  cases c with
  | none => exact h
  | some v =>
    cases hn : normStr v with
    | none => simpa [mergeStrSlot, hn] using h
    | some t => simp [mergeStrSlot, hn]

theorem mergeSeatsSlot_isSome (o : Option Nat) (c : Option Int) (h : o.isSome = true) :
    (mergeSeatsSlot o c).isSome = true := by
  cases c with
  | none => exact h
  | some v =>
    by_cases hv : 1 ≤ v
    · simp [mergeSeatsSlot, hv]
    · simpa [mergeSeatsSlot, hv] using h

theorem get_mergeSlots_isSome (sl : Slots) (u : CandidateUpdate) (n : SlotName)
    (h : (sl.get n).isSome = true) : ((mergeSlots sl u).get n).isSome = true := by
  cases n with
  | body =>
    cases hb : sl.body with
    | none => simp [Slots.get, hb] at h
    | some v =>
      have := mergeStrSlot_isSome sl.body u.body (by simp [hb])
      cases hm : mergeStrSlot sl.body u.body with
      | none => simp [hm] at this
      | some w => simp [Slots.get, mergeSlots, hm]
  | seats_min =>
    cases hb : sl.seats_min with
    | none => simp [Slots.get, hb] at h
    | some v =>
      have := mergeSeatsSlot_isSome sl.seats_min u.seats_min (by simp [hb])
      cases hm : mergeSeatsSlot sl.seats_min u.seats_min with
      | none => simp [hm] at this
      | some w => simp [Slots.get, mergeSlots, hm]
  | fuel =>
    cases hb : sl.fuel with
    | none => simp [Slots.get, hb] at h
    | some v =>
      have := mergeStrSlot_isSome sl.fuel u.fuel (by simp [hb])
      cases hm : mergeStrSlot sl.fuel u.fuel with
      | none => simp [hm] at this
      | some w => simp [Slots.get, mergeSlots, hm]
  | brand =>
    cases hb : sl.brand with
    | none => simp [Slots.get, hb] at h
    | some v =>
      have := mergeStrSlot_isSome sl.brand u.brand (by simp [hb])
      cases hm : mergeStrSlot sl.brand u.brand with
      | none => simp [hm] at this
      | some w => simp [Slots.get, mergeSlots, hm]
  | model =>
    cases hb : sl.model with
    | none => simp [Slots.get, hb] at h
    | some v =>
      have := mergeStrSlot_isSome sl.model u.model (by simp [hb])
      cases hm : mergeStrSlot sl.model u.model with
      | none => simp [hm] at this
      | some w => simp [Slots.get, mergeSlots, hm]

theorem get_mergeSlots_unmentioned (sl : Slots) (u : CandidateUpdate) (n : SlotName)
    (h : u.mentions n = false) : (mergeSlots sl u).get n = sl.get n := by
  cases n with
  | body =>
    cases hb : u.body with
    | none => simp [Slots.get, mergeSlots, mergeStrSlot, hb]
    | some v => simp [CandidateUpdate.mentions, hb] at h
  | seats_min =>
    cases hb : u.seats_min with
    | none => simp [Slots.get, mergeSlots, mergeSeatsSlot, hb]
    | some v => simp [CandidateUpdate.mentions, hb] at h
  | fuel =>
    cases hb : u.fuel with
    | none => simp [Slots.get, mergeSlots, mergeStrSlot, hb]
    | some v => simp [CandidateUpdate.mentions, hb] at h
  | brand =>
    cases hb : u.brand with
    | none => simp [Slots.get, mergeSlots, mergeStrSlot, hb]
    | some v => simp [CandidateUpdate.mentions, hb] at h
  | model =>
    cases hb : u.model with
    | none => simp [Slots.get, mergeSlots, mergeStrSlot, hb]
    | some v => simp [CandidateUpdate.mentions, hb] at h

theorem processTurn_slots (s : SessionState) (msg : String) :
    ∀ ex : ExtractResult, (processTurn s msg ex).1.slots =
      match ex with
      | .err => s.slots
      | .ok u => mergeSlots s.slots u
  | .err => rfl
  | .ok _ => rfl

theorem processTurn_history (s : SessionState) (msg : String) (ex : ExtractResult) :
    (processTurn s msg ex).1.history =
      s.history ++ [⟨"user", msg⟩, ⟨"assistant", (processTurn s msg ex).2⟩] := by
  cases ex <;> rfl

theorem stageIdx_le_nextStage (st : Stage) : stageIdx st ≤ stageIdx (nextStage st) := by
  cases st <;> decide

theorem applySlot_comm (u : CandidateUpdate) (sl : Slots) (a b : SlotName) :
    applySlot u (applySlot u sl a) b = applySlot u (applySlot u sl b) a := by
  cases a <;> cases b <;> rfl

theorem mergeStrSlot_idem (o c : Option String) :
    mergeStrSlot (mergeStrSlot o c) c = mergeStrSlot o c := by
  cases c with
  | none => rfl
  | some v => cases hn : normStr v <;> simp [mergeStrSlot, hn]

theorem mergeSeatsSlot_idem (o : Option Nat) (c : Option Int) :
    mergeSeatsSlot (mergeSeatsSlot o c) c = mergeSeatsSlot o c := by
  cases c with
  | none => rfl
  | some v =>
    by_cases hv : 1 ≤ v <;> simp [mergeSeatsSlot, hv]

theorem nextStage_le_succ (st : Stage) : stageIdx (nextStage st) ≤ stageIdx st + 1 := by
  cases st <;> decide

theorem le_transitionStage (s m : SessionState) (u : CandidateUpdate) :
    optStageIdx s.stage ≤ stageIdx (transitionStage s m u) := by
  cases hst : s.stage with
  | none => simp [optStageIdx, transitionStage, hst]
  | some st =>
    simp only [optStageIdx, transitionStage, hst]
    by_cases hc : isComplete st m.slots m.test_drive_completed u.advance_signal
    · simpa [hc] using stageIdx_le_nextStage st
    · simp [hc]

theorem transitionStage_le_succ (s m : SessionState) (u : CandidateUpdate) :
    stageIdx (transitionStage s m u) ≤ optStageIdx s.stage + 1 := by
  cases hst : s.stage with
  | none => simp [optStageIdx, transitionStage, hst, stageIdx]
  | some st =>
    simp only [optStageIdx, transitionStage, hst]
    by_cases hc : isComplete st m.slots m.test_drive_completed u.advance_signal
    · simpa [hc] using nextStage_le_succ st
    · simp [hc]

theorem processTurn_get_isSome (s : SessionState) (msg : String) (ex : ExtractResult)
    (n : SlotName) (h : (s.slots.get n).isSome = true) :
    ((processTurn s msg ex).1.slots.get n).isSome = true := by
  cases ex with
  | err => exact h
  | ok u => exact get_mergeSlots_isSome s.slots u n h

theorem processTurn_get_unmentioned (s : SessionState) (msg : String) (ex : ExtractResult)
    (n : SlotName) (h : ex.mentions n = false) :
    (processTurn s msg ex).1.slots.get n = s.slots.get n := by
  cases ex with
  | err => rfl
  | ok u => exact get_mergeSlots_unmentioned s.slots u n h

theorem runTurns_get_unmentioned (n : SlotName) :
    ∀ (ts : List (String × ExtractResult)) (s : SessionState),
      (∀ t ∈ ts, ExtractResult.mentions t.2 n = false) →
      (runTurns s ts).slots.get n = s.slots.get n
  | [], _, _ => rfl
  | t :: ts, s, h => by
    have h1 : ExtractResult.mentions t.2 n = false := h t (by simp)
    have h2 : ∀ x ∈ ts, ExtractResult.mentions x.2 n = false := fun x hx => h x (by simp [hx])
    calc (runTurns (processTurn s t.1 t.2).1 ts).slots.get n
        = (processTurn s t.1 t.2).1.slots.get n := runTurns_get_unmentioned n ts _ h2
      _ = s.slots.get n := processTurn_get_unmentioned s t.1 t.2 n h1

theorem runTurns_get_isSome (n : SlotName) :
    ∀ (ts : List (String × ExtractResult)) (s : SessionState),
      (s.slots.get n).isSome = true → ((runTurns s ts).slots.get n).isSome = true
  | [], _, h => h
  | t :: ts, s, h =>
    runTurns_get_isSome n ts _ (processTurn_get_isSome s t.1 t.2 n h)

/-! ## Claims -/

/-- Claim C1: monotonic-fill invariant.  For every session state and
every slot among body, seats_min, fuel, brand and model: a slot holding
a non-absent value is never reverted to absent by a later turn (stated
both for a single turn and for any sequence of turns); a turn whose
extracted update does not mention the slot leaves its value unchanged,
and hence any sequence of turns whose updates never mention the slot
leaves its value unchanged — the value changes only when a turn's
candidate update explicitly supplies a new value for it. -/
theorem monotonic_fill_invariant (s : SessionState) (n : SlotName) :
    (∀ (msg : String) (ex : ExtractResult), (s.slots.get n).isSome = true →
        ((processTurn s msg ex).1.slots.get n).isSome = true)
    ∧ (∀ (msg : String) (ex : ExtractResult), ex.mentions n = false →
        (processTurn s msg ex).1.slots.get n = s.slots.get n)
    ∧ (∀ ts : List (String × ExtractResult),
        (∀ t ∈ ts, ExtractResult.mentions t.2 n = false) →
        (runTurns s ts).slots.get n = s.slots.get n)
    ∧ (∀ ts : List (String × ExtractResult), (s.slots.get n).isSome = true →
        ((runTurns s ts).slots.get n).isSome = true) :=
  ⟨fun msg ex h => processTurn_get_isSome s msg ex n h,
   fun msg ex h => processTurn_get_unmentioned s msg ex n h,
   fun ts h => runTurns_get_unmentioned n ts s h,
   fun ts h => runTurns_get_isSome n ts s h⟩

theorem monotonic_fill_invariant_witness :
    (runTurns sIntake turnsNoBrand).slots.get .brand = sIntake.slots.get .brand :=
  (monotonic_fill_invariant sIntake .brand).2.2.1 turnsNoBrand (by decide)

/-- Claim C2: stage-order invariant.  Across the two consecutive
snapshots of any turn the stage never moves backwards in the fixed
order intake, shortlist, test_drive, financing, delivery (measured by
stageIdx), and delivery is terminal: once reached, a turn never leaves
it. -/
theorem stage_order_invariant (s : SessionState) (msg : String) (ex : ExtractResult) :
    optStageIdx s.stage ≤ optStageIdx (processTurn s msg ex).1.stage
    ∧ (s.stage = some .delivery → (processTurn s msg ex).1.stage = some .delivery) := by
  constructor
  · cases ex with
    | err => exact Nat.le_refl _
    | ok u => exact le_transitionStage s (mergeState s u) u
  · intro h
    cases ex with
    | err => exact h
    | ok u =>
      show some (transitionStage s (mergeState s u) u) = some Stage.delivery
      unfold transitionStage
      rw [h]
      rfl

theorem stage_order_invariant_witness :
    (processTurn sDelivered "anything else?" .err).1.stage = some .delivery :=
  (stage_order_invariant sDelivered "anything else?" .err).2 rfl

/-- Claim C3: single-hop transition rule.  After the merge step, if the
current stage is complete the turn moves to the immediate next stage in
the fixed order; on any turn the stage advances by at most one position
even when several consecutive stages' requirements hold
simultaneously; and on a session's first turn (stage absent, the
no-history case of the data model) the stage is initialized to intake
with the completeness check skipped. -/
theorem single_hop_transition (s : SessionState) (msg : String) (u : CandidateUpdate) :
    (∀ st : Stage, s.stage = some st →
        isComplete st (mergeState s u).slots (mergeState s u).test_drive_completed
            u.advance_signal = true →
        (processTurn s msg (.ok u)).1.stage = some (nextStage st))
    ∧ (∀ ex : ExtractResult,
        optStageIdx (processTurn s msg ex).1.stage ≤ optStageIdx s.stage + 1)
    ∧ (s.stage = none → (processTurn s msg (.ok u)).1.stage = some .intake) := by
  refine ⟨?_, ?_, ?_⟩
  · intro st hst hc
    show some (transitionStage s (mergeState s u) u) = some (nextStage st)
    unfold transitionStage
    rw [hst]
    simp [hc]
  · intro ex
    cases ex with
    | err => exact Nat.le_succ _
    | ok v => exact transitionStage_le_succ s (mergeState s v) v
  · intro h
    show some (transitionStage s (mergeState s u) u) = some Stage.intake
    unfold transitionStage
    rw [h]

theorem single_hop_transition_witness :
    (processTurn sIntake "ok" (.ok emptyUpdate)).1.stage = some (nextStage .intake)
    ∧ (processTurn emptySession "hi" (.ok updSUV)).1.stage = some .intake :=
  ⟨(single_hop_transition sIntake "ok" emptyUpdate).1 .intake rfl (by decide),
   (single_hop_transition emptySession "hi" updSUV).2.2 rfl⟩

/-- Claim C4: long-term seeding.  Hydrating a brand-new session (no
working-memory entry) for a user with a PreferenceRecord yields a state
whose every slot equals the record's value (everything not already
present in an empty session is seeded), with no history yet and the
stage still absent — in particular a record with brand Audi yields
slots.brand Audi before the first message is processed; and when a
working entry exists, hydration returns it untouched, so long-term
values never override values set within the session. -/
theorem longterm_seeding (store : Store) (uid sid : String) (pref : PreferenceRecord) :
    (store.working sid = none → store.longterm uid = some pref →
        (∀ n : SlotName, (hydrate store sid uid).slots.get n = pref.slots.get n)
        ∧ (hydrate store sid uid).stage = none
        ∧ (hydrate store sid uid).history = []
        ∧ (∀ b : String, pref.slots.brand = some b →
            (hydrate store sid uid).slots.brand = some b))
    ∧ (∀ s : SessionState, store.working sid = some s → hydrate store sid uid = s) := by
  constructor
  · intro hw hl
    have hh : hydrate store sid uid =
        { emptySession with slots := seedSlots emptySlots pref.slots } := by
      unfold hydrate
      rw [hw, hl]
      rfl
    refine ⟨?_, by rw [hh]; rfl, by rw [hh]; rfl, ?_⟩
    · intro n
      rw [hh]
      cases n <;> simp [Slots.get, seedSlots, preferFirst, emptySlots]
    · intro b hb
      rw [hh]
      simp [seedSlots, preferFirst, emptySlots, hb]
  · intro s hw
    unfold hydrate
    rw [hw]

theorem longterm_seeding_witness :
    (hydrate store0 "s9" "u1").slots.brand = some "Audi"
    ∧ hydrate storeW "s1" "u1" = sIntake :=
  ⟨((longterm_seeding store0 "u1" "s9" prefAudi).1 rfl (by decide)).2.2.2 "Audi" rfl,
   (longterm_seeding storeW "u1" "s1" prefAudi).2 sIntake (by decide)⟩

/-- Claim C5: extraction-failure atomicity.  On a turn whose extraction
errors (or returns malformed output), the candidate update is treated
as empty: the resulting state keeps its slots, stage and
test_drive_completed flag unchanged — never partially updated — the
history alone is extended with the user message and the generic
fallback reply, and the turn completes returning that fallback
reply. -/
theorem extraction_failure_atomic (s : SessionState) (msg : String) :
    (processTurn s msg .err).1.slots = s.slots
    ∧ (processTurn s msg .err).1.stage = s.stage
    ∧ (processTurn s msg .err).1.test_drive_completed = s.test_drive_completed
    ∧ (processTurn s msg .err).1.history =
        s.history ++ [⟨"user", msg⟩, ⟨"assistant", fallbackReply⟩]
    ∧ (processTurn s msg .err).2 = fallbackReply :=
  ⟨rfl, rfl, rfl, rfl, rfl⟩

/-- Claim C6: intake completeness.  isComplete at stage intake holds if
and only if (body is present or brand is present) and seats_min is
present and fuel is present; consequently the concrete state with
slots body SUV, seats_min 5, fuel hybrid in stage intake passes the
next turn's completeness check and transitions out of intake to
shortlist. -/
theorem intake_completeness (sl : Slots) (tdc adv : Bool) :
    (isComplete .intake sl tdc adv = true ↔
        ((sl.body.isSome = true ∨ sl.brand.isSome = true)
          ∧ sl.seats_min.isSome = true ∧ sl.fuel.isSome = true))
    ∧ (processTurn sIntake "what brands suit me?" (.ok emptyUpdate)).1.stage =
        some .shortlist := by
  constructor
  · simp [isComplete, Bool.and_eq_true, Bool.or_eq_true, and_assoc]
  · rfl

theorem intake_completeness_witness :
    isComplete .intake sIntake.slots false false = true :=
  (intake_completeness sIntake.slots false false).1.mpr (by decide)

/-- Claim C7: merge idempotence and order-independence.  For every
state and well-formed candidate update, applying the State Merger twice
yields the same state as applying it once; the slot merge equals the
fold of the per-slot updates over the slot names in declaration order;
and that fold yields the same result over any two permutations of slot
names, so the result does not depend on the order in which the distinct
slot names are applied.  (The proof nowhere needs the well-formedness
hypothesis: malformed values are dropped identically on both
applications.) -/
theorem merge_idempotent_order_independent (s : SessionState) (u : CandidateUpdate)
    (h : wellFormed u = true) :
    mergeState (mergeState s u) u = mergeState s u
    ∧ mergeSlots s.slots u = List.foldl (applySlot u) s.slots allSlotNames
    ∧ (∀ l₁ l₂ : List SlotName, l₁.Perm l₂ →
        List.foldl (applySlot u) s.slots l₁ = List.foldl (applySlot u) s.slots l₂) := by
  refine ⟨?_, rfl, ?_⟩
  · simp [mergeState, mergeSlots, mergeStrSlot_idem, mergeSeatsSlot_idem, Bool.or_assoc]
  · intro l₁ l₂ p
    exact p.foldl_eq' (fun x _ y _ z => applySlot_comm u z x y) s.slots

theorem merge_idempotent_order_independent_witness :
    mergeState (mergeState sIntake updSUV) updSUV = mergeState sIntake updSUV
    ∧ List.foldl (applySlot updSUV) sIntake.slots
        [SlotName.model, .brand, .fuel, .seats_min, .body] =
      List.foldl (applySlot updSUV) sIntake.slots allSlotNames :=
  ⟨(merge_idempotent_order_independent sIntake updSUV (by decide)).1,
   (merge_idempotent_order_independent sIntake updSUV (by decide)).2.2
     [SlotName.model, .brand, .fuel, .seats_min, .body] allSlotNames (by decide)⟩

/-- Claim C8: submit-turn output shape.  Every submit-turn response
carries the effective session id (the caller's id, or the fresh one
when absent), the updated SessionState snapshot — the very state
produced by the turn on the hydrated session and stored back into
working memory under that id, a full SessionState with slots, stage,
test_drive_completed and history — and the reply text, with the
snapshot's append-only history extended by the user message and that
reply. -/
theorem submit_turn_output_shape (store : Store) (req : TurnRequest) (freshId : String)
    (ex : ExtractResult) :
    (submitTurn store req freshId ex).2.session_id = req.session_id.getD freshId
    ∧ (submitTurn store req freshId ex).2.state =
        (processTurn (hydrate store (req.session_id.getD freshId) req.user_id)
          req.message ex).1
    ∧ (submitTurn store req freshId ex).1.working
        ((submitTurn store req freshId ex).2.session_id) =
        some ((submitTurn store req freshId ex).2.state)
    ∧ (submitTurn store req freshId ex).2.state.history =
        (hydrate store (req.session_id.getD freshId) req.user_id).history ++
          [⟨"user", req.message⟩, ⟨"assistant", (submitTurn store req freshId ex).2.reply⟩] := by
  refine ⟨rfl, rfl, ?_, ?_⟩
  · simp [submitTurn, persistTurn, updateKey]
  · exact processTurn_history _ _ _

/-- Claim C9: delete-all-sessions frame property.  The caller-boundary
handler is a no-op without the explicit confirmation; once confirmed it
clears every working-memory entry; in either case it leaves the
long-term store — every PreferenceRecord — untouched; and after it runs,
hydrating a new session for a previously-seen user id is still seeded
from the user's long-term record (here witnessed on the brand slot). -/
theorem delete_all_sessions_frame (store : Store) (confirmed : Bool)
    (uid sid : String) (pref : PreferenceRecord) :
    handleDeleteAllSessions false store = store
    ∧ (∀ q : String, (handleDeleteAllSessions true store).working q = none)
    ∧ (handleDeleteAllSessions confirmed store).longterm = store.longterm
    ∧ (store.longterm uid = some pref → ∀ b : String, pref.slots.brand = some b →
        (hydrate (handleDeleteAllSessions true store) sid uid).slots.brand = some b) := by
  refine ⟨rfl, fun q => rfl, by cases confirmed <;> rfl, ?_⟩
  intro hl b hb
  show (hydrate { store with working := fun _ => none } sid uid).slots.brand = some b
  unfold hydrate
  rw [show ({ store with working := fun _ => none } : Store).longterm uid = some pref from hl]
  simp [seedSlots, preferFirst, emptySlots, emptySession, hb]

theorem delete_all_sessions_frame_witness :
    (hydrate (handleDeleteAllSessions true storeW) "s1" "u1").slots.brand = some "Audi" :=
  (delete_all_sessions_frame storeW true "u1" "s1" prefAudi).2.2.2 (by decide) "Audi" rfl

/-- Claim C10: visualization flags.  In WorkflowVisualization the
completed flag of the step titled The Delivery is the constant false
and the step titled The Deal is marked completed exactly when the
snapshot's stage equals the financing string; hence a snapshot whose
stage is the delivery string renders both The Deal and The Delivery as
not completed, although delivery is the funnel's terminal stage. -/
theorem workflow_delivery_deal_flags (s : FSessionState) :
    wvDeliveryCompleted s = false
    ∧ (wvDealCompleted s = true ↔ s.stage = some "financing")
    ∧ (s.stage = some "delivery" →
        wvDealCompleted s = false ∧ wvDeliveryCompleted s = false) := by
  refine ⟨rfl, ?_, ?_⟩
  · simp [wvDealCompleted]
  · intro h
    refine ⟨?_, rfl⟩
    rw [wvDealCompleted, h]
    decide

theorem workflow_delivery_deal_flags_witness :
    wvDealCompleted fDelivered = false ∧ wvDeliveryCompleted fDelivered = false :=
  (workflow_delivery_deal_flags fDelivered).2.2 rfl

end AutoEmporium
